import Mathlib

/-!
Verification of the batch-accumulation core and the log-transform collaborator
of a log-shipping transport (pino-coralogix).

The accumulator (`src/batch.js`, class `BatchAccumulator`) is embedded as an
explicit state machine.  The record type is an abstract parameter `R` and the
source's `estimateLogSize` (JSON-stringify length of a record) is an abstract
size function `est : R → Nat`, since no accumulator invariant depends on the
internal shape of a record.

The asynchronous `flush()` body has exactly one suspension point, the
`await this.onFlush(batchToFlush)` call.  Everything before the await
(the guard, setting `flushing`, swapping the buffer and zeroing the size
counter) is a single synchronous step, embedded as `flushStart`; everything
after the await (the catch of a delivery error and the `finally` clearing
`flushing`) is a second synchronous step, embedded as `flushEnd`.  A trace
semantics (`Ev`, `step`, `run`) interleaves these phases with `add` calls and
records every batch handed to the injected deliver callback, so claims about
concurrent flushes and adds during an in-flight delivery become statements
about traces.  `flush` is a flush call running with no interleaving, and
`stop` is the source's stop (clear the timer handle if present, then one
awaited flush).

The JS float literal `0.8` in `needsFlush` is modelled as the exact rational
4/5: the comparison `currentSizeBytes >= maxBatchSizeBytes * 0.8` over
integers becomes `4 * maxBatchSizeBytes ≤ 5 * currentSizeBytes`.
-/

namespace BatchAccumulator

/-- Configuration fields read by the accumulator and the orchestrator
(`batchSize`, `flushInterval`, `maxBatchSizeBytes` of `DEFAULT_CONFIG`). -/
structure BatchConfig where
  batchSize : Nat
  flushInterval : Nat
  maxBatchSizeBytes : Nat
  deriving DecidableEq, Repr

/-- The mutable fields of a `BatchAccumulator` instance: `this.batch`,
`this.currentSizeBytes`, `this.timer` (modelled as presence of the interval
handle: `true` while the handle is non-null) and `this.flushing`. -/
structure AccState (R : Type) where
  batch : List R
  currentSizeBytes : Nat
  timer : Bool
  flushing : Bool
  deriving DecidableEq, Repr

variable {R : Type} (est : R → Nat) (cfg : BatchConfig)

/-- State after the constructor ran: empty buffer, zero size, interval timer
started (`startTimer` sets `this.timer`), not flushing. -/
def init : AccState R :=
  { batch := [], currentSizeBytes := 0, timer := true, flushing := false }

/-- `needsFlush()`: `this.currentSizeBytes >= this.config.maxBatchSizeBytes * 0.8`,
with the 0.8 factor written exactly as the rational 4/5 over naturals. -/
def needsFlush (s : AccState R) : Bool :=
  4 * cfg.maxBatchSizeBytes ≤ 5 * s.currentSizeBytes

/-- `add(log)`: push the record, add its estimated size, return `needsFlush()`. -/
def add (s : AccState R) (log : R) : AccState R × Bool :=
  let s1 : AccState R :=
    { s with batch := s.batch ++ [log],
             currentSizeBytes := s.currentSizeBytes + est log }
  (s1, needsFlush cfg s1)

/-- `size()`: number of buffered records. -/
def size (s : AccState R) : Nat :=
  s.batch.length

/-- `estimatedSizeBytes()`: the running byte-size counter. -/
def estimatedSizeBytes (s : AccState R) : Nat :=
  s.currentSizeBytes

/-- The synchronous prefix of `flush()`, up to but not including the await of
`this.onFlush(batchToFlush)`: if `this.flushing` is set or the buffer is
empty, return with the state untouched and no delivery (`none`); otherwise set
`flushing`, swap the live buffer for an empty one, zero the size counter, and
hand the swapped-out buffer to the deliver callback (`some batch`). -/
def flushStart (s : AccState R) : AccState R × Option (List R) :=
  if s.flushing || s.batch.isEmpty then (s, none)
  else ({ s with flushing := true, batch := [], currentSizeBytes := 0 },
        some s.batch)

/-- The synchronous suffix of `flush()` after the awaited delivery settles:
a rejected delivery is caught (the state does not depend on the outcome) and
the `finally` block clears `flushing`. -/
def flushEnd (s : AccState R) : AccState R :=
  { s with flushing := false }

/-- A whole `flush()` call awaited with nothing interleaved: `flushStart`
followed, when a delivery was started, by `flushEnd`.  Returns the batch that
was handed to the deliver callback, if any. -/
def flush (s : AccState R) : AccState R × Option (List R) :=
  match flushStart s with
  | (s1, none) => (s1, none)
  | (s1, some b) => (flushEnd s1, some b)

/-- `stop()`: if the timer handle is non-null, clear the interval and null the
handle; then perform one final `flush()`, awaited to completion. -/
def stop (s : AccState R) : AccState R × Option (List R) :=
  let s1 := if s.timer then { s with timer := false } else s
  flush s1

/-- Events of the interleaving semantics: a synchronous `add` call, a `flush()`
call reaching its guard (and, when the guard passes, starting a delivery), and
the awaited delivery settling with outcome `ok` (`false` = the deliver
callback rejected). -/
inductive Ev (R : Type) where
  | add (r : R)
  | flushBegin
  | flushResume (ok : Bool)
  deriving DecidableEq, Repr

/-- One event against the state.  The second component lists the batches
handed to the deliver callback during the event (empty or a singleton). -/
def step (s : AccState R) : Ev R → AccState R × List (List R)
  | Ev.add r => ((add est cfg s r).1, [])
  | Ev.flushBegin =>
      match flushStart s with
      | (s1, none) => (s1, [])
      | (s1, some b) => (s1, [b])
  | Ev.flushResume _ => (flushEnd s, [])

/-- Run a trace of events, collecting every batch handed to the deliver
callback, in delivery order. -/
def run (s : AccState R) : List (Ev R) → AccState R × List (List R)
  | [] => (s, [])
  | e :: es =>
      let p := step est cfg s e
      let q := run p.1 es
      (q.1, p.2 ++ q.2)

/-- A state is reachable when some trace of events leads to it from the
freshly constructed accumulator. -/
def Reachable (s : AccState R) : Prop :=
  ∃ tr : List (Ev R), (run est cfg init tr).1 = s

/-- The orchestrator's per-record ingestion step (`buildTransport` loop body,
after the transform):
`const needsFlush = batchAccumulator.add(log);`
`if (needsFlush && batchAccumulator.size() >= config.batchSize) await batchAccumulator.flush()`.
The flush is awaited inside the loop, so it runs with nothing interleaved.
Returns the new state and the batches delivered during the step. -/
def ingestStep (s : AccState R) (log : R) : AccState R × List (List R) :=
  let a := add est cfg s log
  if a.2 = true ∧ cfg.batchSize ≤ size a.1 then
    match flush a.1 with
    | (s2, none) => (s2, [])
    | (s2, some b) => (s2, [b])
  else (a.1, [])

end BatchAccumulator

namespace Transform

/-- The value of a Pino log's `msg` field (`src/transform.js`,
`formatMessage`).  A JS object (or array) value is opaque to the transform
except for its JSON serialization, so the `obj` constructor carries the string
`JSON.stringify` produces for it; `num` and `boolv` carry values whose
`String(msg)` conversion is their printed form. -/
inductive MsgVal where
  | undef
  | null
  | str (s : String)
  | obj (jsonText : String)
  | num (n : Int)
  | boolv (b : Bool)
  deriving DecidableEq, Repr

/-- `formatMessage(msg)`: empty string for `undefined`/`null`, strings kept
as-is, objects JSON-stringified, anything else via `String(msg)`. -/
def formatMessage : MsgVal → String
  | MsgVal.undef => ""
  | MsgVal.null => ""
  | MsgVal.str s => s
  | MsgVal.obj jsonText => jsonText
  | MsgVal.num n => toString n
  | MsgVal.boolv b => if b then "true" else "false"

/-- The fields of a Pino log object read by `transformLog`.  `none` models an
absent (`undefined`) field. -/
structure PinoLog where
  time : Option Int
  level : Option Int
  msg : MsgVal
  hostname : Option String
  category : Option String
  className : Option String
  methodName : Option String
  threadId : Option String
  deriving DecidableEq, Repr

/-- The configuration fields read by `transformLog`. -/
structure TransportConfig where
  applicationName : String
  subsystemName : String
  computerName : Option String
  deriving DecidableEq, Repr

/-- The Coralogix wire record built by `transformLog`. -/
structure CoralogixLog where
  timestamp : Option Int
  applicationName : String
  subsystemName : String
  severity : Int
  text : String
  computerName : Option String
  category : Option String
  className : Option String
  methodName : Option String
  threadId : Option String
  deriving DecidableEq, Repr

/-- The `LEVEL_TO_SEVERITY` lookup table: `none` models an absent key
(`undefined` lookup result). -/
def LEVEL_TO_SEVERITY (l : Int) : Option Int :=
  if l = 10 then some 1
  else if l = 20 then some 2
  else if l = 30 then some 3
  else if l = 40 then some 4
  else if l = 50 then some 5
  else if l = 60 then some 6
  else none

/-- JS `x || d` for `x` an `undefined`-or-number value: the default is taken
when `x` is `undefined` or falsy (`0`). -/
def jsOrInt : Option Int → Int → Int
  | some v, d => if v = 0 then d else v
  | none, d => d

/-- JS truthiness of an `undefined`-or-string value (`if (config.computerName)`
style guards): `undefined` and the empty string are falsy. -/
def truthyStr : Option String → Bool
  | some s => !(s = "")
  | none => false

/-- `transformLog(pinoLog, config)` from `src/transform.js`: copies the
timestamp, injects the two static identifiers from config, maps the level
through `LEVEL_TO_SEVERITY` with fallback severity 3, formats the message,
prefers the configured `computerName` over the log's `hostname`, and carries
the four optional metadata fields when present (truthy). -/
def transformLog (pinoLog : PinoLog) (config : TransportConfig) : CoralogixLog :=
  { timestamp := pinoLog.time
    applicationName := config.applicationName
    subsystemName := config.subsystemName
    severity := jsOrInt (pinoLog.level.bind LEVEL_TO_SEVERITY) 3
    text := formatMessage pinoLog.msg
    computerName :=
      if truthyStr config.computerName then config.computerName
      else if truthyStr pinoLog.hostname then pinoLog.hostname
      else none
    category := if truthyStr pinoLog.category then pinoLog.category else none
    className := if truthyStr pinoLog.className then pinoLog.className else none
    methodName := if truthyStr pinoLog.methodName then pinoLog.methodName else none
    threadId := if truthyStr pinoLog.threadId then pinoLog.threadId else none }

/-- The severity mapping as the specification states it: the fixed table
10→1, 20→2, 30→3, 40→4, 50→5, 60→6, and 3 for any other or missing level. -/
def severitySpec : Option Int → Int
  | none => 3
  | some l =>
      if l = 10 then 1
      else if l = 20 then 2
      else if l = 30 then 3
      else if l = 40 then 4
      else if l = 50 then 5
      else if l = 60 then 6
      else 3

end Transform

/-- A concrete configuration (the source's `DEFAULT_CONFIG` values) used to
instantiate universally quantified results. -/
def cfg0 : BatchAccumulator.BatchConfig :=
  { batchSize := 100, flushInterval := 1000, maxBatchSizeBytes := 2097152 }

open BatchAccumulator Transform

theorem step_flushResume_eq {R : Type} (est : R → Nat) (cfg : BatchConfig)
    (s : AccState R) (ok : Bool) :
    step est cfg s (Ev.flushResume ok) = (flushEnd s, []) := rfl

theorem step_flushBegin_blocked {R : Type} (est : R → Nat) (cfg : BatchConfig)
    (s : AccState R) (h : s.flushing = true) :
    step est cfg s Ev.flushBegin = (s, []) := by
  simp [step, flushStart, h]

theorem step_flushBegin_open {R : Type} (est : R → Nat) (cfg : BatchConfig)
    (s : AccState R) (hf : s.flushing = false) (hb : s.batch ≠ []) :
    step est cfg s Ev.flushBegin =
      ({ s with flushing := true, batch := [], currentSizeBytes := 0 },
       [s.batch]) := by
  simp [step, flushStart, hf, hb]

theorem run_append_eq {R : Type} (est : R → Nat) (cfg : BatchConfig)
    (t : AccState R) (l1 l2 : List (Ev R)) :
    run est cfg t (l1 ++ l2) =
      ((run est cfg (run est cfg t l1).1 l2).1,
       (run est cfg t l1).2 ++ (run est cfg (run est cfg t l1).1 l2).2) := by
  induction l1 generalizing t with
  | nil => simp [run]
  | cons e es ih => simp [run, ih]

theorem run_adds_eq {R : Type} (est : R → Nat) (cfg : BatchConfig)
    (rs : List R) (t : AccState R) :
    run est cfg t (rs.map Ev.add) =
      ({ t with batch := t.batch ++ rs,
                currentSizeBytes := t.currentSizeBytes + (rs.map est).sum },
       []) := by
  induction rs generalizing t with
  | nil => simp [run]
  | cons r rs ih => simp [run, step, add, ih, Nat.add_assoc]

theorem run_replicate_flushing {R : Type} (est : R → Nat) (cfg : BatchConfig)
    (m : Nat) (t : AccState R) (h : t.flushing = true) :
    run est cfg t (List.replicate m (Ev.flushBegin : Ev R)) = (t, []) := by
  induction m with
  | zero => simp [run]
  | succ m ih =>
      rw [List.replicate_succ]
      simp [run, step_flushBegin_blocked est cfg t h, ih]

/-- Claim C1: a `flush()` call arriving while `flushing` is set or the buffer
is empty is a true no-op (state untouched, deliver not invoked), and any
number `n ≥ 1` of flush calls issued against a single buffered non-empty
batch invoke the deliver callback exactly once, with that batch, leaving the
buffer empty. -/
theorem flush_exclusive {R : Type} (est : R → Nat) (cfg : BatchConfig)
    (s : AccState R) (n : Nat) (hn : 1 ≤ n)
    (hf : s.flushing = false) (hb : s.batch ≠ []) :
    (∀ t : AccState R, t.flushing = true ∨ t.batch = [] → flush t = (t, none)) ∧
    run est cfg s (List.replicate n (Ev.flushBegin : Ev R))
      = ({ s with flushing := true, batch := [], currentSizeBytes := 0 },
         [s.batch]) := by
  constructor
  · intro t ht
    rcases ht with h | h <;> simp [flush, flushStart, h]
  · obtain ⟨m, rfl⟩ : ∃ m, n = m + 1 :=
      ⟨n - 1, (Nat.succ_pred_eq_of_pos hn).symm⟩
    rw [List.replicate_succ]
    have hfs : flushStart s
        = ({ s with flushing := true, batch := [], currentSizeBytes := 0 },
           some s.batch) := by
      simp [flushStart, hf, hb]
    have hrep := run_replicate_flushing est cfg m
      ({ s with flushing := true, batch := [], currentSizeBytes := 0 }) rfl
    simp [run, step, hfs, hrep]

theorem flush_exclusive_witness :
    (1 : Nat) ≤ 3 ∧
    run (id : Nat → Nat) cfg0 ⟨[5], 5, true, false⟩
        (List.replicate 3 (Ev.flushBegin : Ev Nat))
      = (⟨[], 0, true, true⟩, [[5]]) :=
  ⟨by decide,
   (flush_exclusive (id : Nat → Nat) cfg0 ⟨[5], 5, true, false⟩ 3
      (by decide) rfl (by decide)).2⟩

/-- Claim C2: when the guard passes, `flush()` swaps the live buffer for an
empty one and zeroes the size counter in the same synchronous step that
starts the delivery; the batch handed to deliver is the whole previous
buffer, and records added while the delivery is in flight end up in the fresh
buffer, never in the batch being delivered. -/
theorem flush_swap {R : Type} (est : R → Nat) (cfg : BatchConfig)
    (s : AccState R) (rs : List R) (ok : Bool)
    (hf : s.flushing = false) (hb : s.batch ≠ []) :
    flushStart s
      = ({ s with flushing := true, batch := [], currentSizeBytes := 0 },
         some s.batch) ∧
    run est cfg s (Ev.flushBegin :: (rs.map Ev.add ++ [Ev.flushResume ok]))
      = ({ batch := rs, currentSizeBytes := (rs.map est).sum,
           timer := s.timer, flushing := false }, [s.batch]) := by
  constructor
  · simp [flushStart, hf, hb]
  · have hfs : flushStart s
        = ({ s with flushing := true, batch := [], currentSizeBytes := 0 },
           some s.batch) := by
      simp [flushStart, hf, hb]
    simp [run, step, hfs, run_append_eq, run_adds_eq, flushEnd]

theorem flush_swap_witness :
    run (id : Nat → Nat) cfg0 ⟨[5], 5, true, false⟩
        (Ev.flushBegin :: (([7] : List Nat).map Ev.add ++ [Ev.flushResume false]))
      = (⟨[7], 7, true, false⟩, [[5]]) :=
  (flush_swap (id : Nat → Nat) cfg0 ⟨[5], 5, true, false⟩ [7] false
     rfl (by decide)).2

/-- Claim C3: a rejected delivery is contained inside `flush()`: the state
after the awaited delivery settles does not depend on the outcome, the
`flushing` flag is cleared either way, the records of the failed batch are
dropped rather than re-queued, and an always-failing deliver does not stop
the next add/flush cycle from delivering the next batch. -/
theorem flush_error_contained {R : Type} (est : R → Nat) (cfg : BatchConfig)
    (s : AccState R) (rs : List R)
    (hf : s.flushing = false) (hb : s.batch ≠ []) (hrs : rs ≠ []) :
    (∀ (t : AccState R) (ok : Bool),
        step est cfg t (Ev.flushResume ok) = (flushEnd t, []) ∧
        (flushEnd t).flushing = false) ∧
    run est cfg s ([Ev.flushBegin, Ev.flushResume false] ++ rs.map Ev.add
        ++ [Ev.flushBegin, Ev.flushResume false])
      = ({ batch := [], currentSizeBytes := 0, timer := s.timer,
           flushing := false }, [s.batch, rs]) := by
  refine ⟨fun t ok => ⟨rfl, rfl⟩, ?_⟩
  have hfs1 : flushStart s
      = ({ s with flushing := true, batch := [], currentSizeBytes := 0 },
         some s.batch) := by
    simp [flushStart, hf, hb]
  have hfs2 : flushStart
        ({ batch := rs, currentSizeBytes := (rs.map est).sum,
           timer := s.timer, flushing := false } : AccState R)
      = ({ batch := [], currentSizeBytes := 0, timer := s.timer,
           flushing := true }, some rs) := by
    simp [flushStart, hrs]
  simp only [List.cons_append, List.nil_append]
  simp [run, step, hfs1, hfs2, run_append_eq, run_adds_eq, flushEnd]

theorem flush_error_contained_witness :
    run (id : Nat → Nat) cfg0 ⟨[5], 5, true, false⟩
        ([Ev.flushBegin, Ev.flushResume false] ++ ([7] : List Nat).map Ev.add
          ++ [Ev.flushBegin, Ev.flushResume false])
      = (⟨[], 0, true, false⟩, [[5], [7]]) :=
  (flush_error_contained (id : Nat → Nat) cfg0 ⟨[5], 5, true, false⟩ [7]
     rfl (by decide) (by decide)).2

/-- Claim C4: `stop()` cancels the periodic timer and performs one final
awaited flush: after any non-empty sequence of adds with no flush having
happened, `stop()` delivers exactly one batch holding all the records in
order and leaves the buffer empty. -/
theorem stop_drains {R : Type} (est : R → Nat) (cfg : BatchConfig)
    (rs : List R) (hrs : rs ≠ []) :
    (run est cfg (init : AccState R) (rs.map Ev.add)).2 = [] ∧
    stop ((run est cfg (init : AccState R) (rs.map Ev.add)).1)
      = ({ batch := [], currentSizeBytes := 0, timer := false,
           flushing := false }, some rs) := by
  rw [run_adds_eq]
  refine ⟨rfl, ?_⟩
  simp [stop, flush, flushStart, flushEnd, init, hrs]

theorem stop_drains_witness :
    stop (⟨[3, 4], 7, true, false⟩ : AccState Nat)
      = (⟨[], 0, false, false⟩, some [3, 4]) :=
  (stop_drains (id : Nat → Nat) cfg0 [3, 4] (by decide)).2

/-- Claim C5: `needsFlush()` is true exactly when the accumulated size has
reached 80 percent of the byte ceiling, `add` returns this predicate
evaluated after the record is appended, and once true the predicate stays
true across further adds (the size counter only grows between flushes). -/
theorem needsFlush_threshold {R : Type} (est : R → Nat) (cfg : BatchConfig)
    (s : AccState R) (r : R) :
    ((add est cfg s r).2 = needsFlush cfg (add est cfg s r).1) ∧
    (needsFlush cfg s = true ↔
      (0.8 : ℚ) * (cfg.maxBatchSizeBytes : ℚ) ≤ (s.currentSizeBytes : ℚ)) ∧
    (needsFlush cfg s = true → (add est cfg s r).2 = true) := by
  refine ⟨rfl, ?_, ?_⟩
  · rw [needsFlush, decide_eq_true_eq]
    rw [show (0.8 : ℚ) = 4 / 5 by norm_num]
    rw [div_mul_eq_mul_div, div_le_iff₀ (by norm_num : (0 : ℚ) < 5)]
    constructor
    · intro h
      have h1 : ((4 * cfg.maxBatchSizeBytes : Nat) : ℚ)
          ≤ ((5 * s.currentSizeBytes : Nat) : ℚ) := by exact_mod_cast h
      push_cast at h1
      linarith
    · intro h
      have h1 : ((4 * cfg.maxBatchSizeBytes : Nat) : ℚ)
          ≤ ((5 * s.currentSizeBytes : Nat) : ℚ) := by push_cast; linarith
      exact_mod_cast h1
  · intro h
    rw [needsFlush, decide_eq_true_eq] at h
    show needsFlush cfg (add est cfg s r).1 = true
    rw [needsFlush, decide_eq_true_eq]
    simp only [add]
    omega

theorem needsFlush_threshold_witness :
    needsFlush cfg0 (⟨[], 1677722, true, false⟩ : AccState Nat) = true :=
  (needsFlush_threshold (id : Nat → Nat) cfg0
      ⟨[], 1677722, true, false⟩ 0).2.1.mpr (by norm_num [cfg0])

theorem run_size_inv {R : Type} (est : R → Nat) (cfg : BatchConfig)
    (tr : List (Ev R)) (t : AccState R)
    (h : t.currentSizeBytes = (t.batch.map est).sum) :
    (run est cfg t tr).1.currentSizeBytes
      = ((run est cfg t tr).1.batch.map est).sum := by
  induction tr generalizing t with
  | nil => simpa [run] using h
  | cons e es ih =>
      have hfst : (run est cfg t (e :: es)).1
          = (run est cfg (step est cfg t e).1 es).1 := rfl
      rw [hfst]
      apply ih
      cases e with
      | add r => simp [step, add, h]
      | flushBegin =>
          by_cases hc : (t.flushing || t.batch.isEmpty) = true
          · simp [step, flushStart, hc, h]
          · simp [step, flushStart, hc]
      | flushResume ok => simpa [step, flushEnd] using h

/-- Claim C6: in every reachable accumulator state the size counter equals
the sum of the estimated sizes of the buffered records; `add` appends the
record and bumps the counter by exactly its estimated size, and the counter
is zeroed in the very step that clears the buffer when a flush begins. -/
theorem sizeBytes_invariant {R : Type} (est : R → Nat) (cfg : BatchConfig)
    (s : AccState R) (h : Reachable est cfg s) (r : R) :
    s.currentSizeBytes = (s.batch.map est).sum ∧
    (add est cfg s r).1.batch = s.batch ++ [r] ∧
    (add est cfg s r).1.currentSizeBytes = s.currentSizeBytes + est r ∧
    (s.flushing = false → s.batch ≠ [] →
      (flushStart s).1.batch = [] ∧ (flushStart s).1.currentSizeBytes = 0 ∧
      (flushStart s).2 = some s.batch) := by
  obtain ⟨tr, rfl⟩ := h
  refine ⟨run_size_inv est cfg tr init (by simp [init]), rfl, rfl, ?_⟩
  intro hf hb
  simp [flushStart, hf, hb]

theorem sizeBytes_invariant_witness :
    (⟨[5], 5, true, false⟩ : AccState Nat).currentSizeBytes
      = (((⟨[5], 5, true, false⟩ : AccState Nat).batch).map (id : Nat → Nat)).sum :=
  (sizeBytes_invariant (id : Nat → Nat) cfg0 ⟨[5], 5, true, false⟩
      ⟨[Ev.add 5], rfl⟩ 7).1

/-- Claim C7: for any non-empty sequence of records added with no intervening
flush, the batch handed to the deliver callback at the next flush is exactly
that sequence, in insertion order, with nothing reordered, duplicated or
dropped. -/
theorem order_preserved {R : Type} (est : R → Nat) (cfg : BatchConfig)
    (rs : List R) (h : rs ≠ []) :
    run est cfg (init : AccState R) (rs.map Ev.add ++ [Ev.flushBegin])
      = ({ batch := [], currentSizeBytes := 0, timer := true,
           flushing := true }, [rs]) := by
  rw [run_append_eq, run_adds_eq]
  have hfs : flushStart
        ({ batch := rs, currentSizeBytes := (rs.map est).sum,
           timer := true, flushing := false } : AccState R)
      = ({ batch := [], currentSizeBytes := 0, timer := true,
           flushing := true }, some rs) := by
    simp [flushStart, h]
  simp [run, step, hfs, init]

theorem order_preserved_witness :
    run (id : Nat → Nat) cfg0 (init : AccState Nat)
        (([1, 2, 3] : List Nat).map Ev.add ++ [Ev.flushBegin])
      = (⟨[], 0, true, true⟩, [[1, 2, 3]]) :=
  order_preserved (id : Nat → Nat) cfg0 [1, 2, 3] (by decide)

/-- Claim C8: the ingestion loop flushes immediately after an `add` exactly
when that `add` returned true (byte threshold crossed) and the buffered count
has reached the configured `batchSize`; when either condition fails, the step
performs no delivery at all. -/
theorem ingest_flush_policy {R : Type} (est : R → Nat) (cfg : BatchConfig)
    (s : AccState R) (r : R) (hf : s.flushing = false) :
    (¬((add est cfg s r).2 = true ∧ cfg.batchSize ≤ size (add est cfg s r).1) →
      ingestStep est cfg s r = ((add est cfg s r).1, [])) ∧
    (((add est cfg s r).2 = true ∧ cfg.batchSize ≤ size (add est cfg s r).1) →
      ingestStep est cfg s r
        = ({ batch := [], currentSizeBytes := 0, timer := s.timer,
             flushing := false }, [(add est cfg s r).1.batch])) := by
  constructor
  · intro hneg
    simp [ingestStep, hneg]
  · rintro ⟨h1, h2⟩
    have hb : (add est cfg s r).1.batch ≠ [] := by simp [add]
    have hfs : flushStart (add est cfg s r).1
        = ({ batch := [], currentSizeBytes := 0, timer := s.timer,
             flushing := true }, some (add est cfg s r).1.batch) := by
      simp only [flushStart, add]
      simp [hf]
    simp [ingestStep, h1, h2, flush, hfs, flushEnd]

theorem ingest_flush_policy_witness :
    ingestStep (id : Nat → Nat) ⟨1, 1000, 10⟩ (init : AccState Nat) 9
      = (⟨[], 0, true, false⟩, [[9]]) :=
  (ingest_flush_policy (id : Nat → Nat) ⟨1, 1000, 10⟩ init 9 rfl).2
    ⟨by decide, by decide⟩

/-- Claim C9: `transformLog` is total (it returns a wire record for every
input) and maps the producer level to the wire severity through the fixed
table 10→1, 20→2, 30→3, 40→4, 50→5, 60→6, with any other or missing level
mapped to severity 3, as `severitySpec` states it. -/
theorem transformLog_severity (p : PinoLog) (c : TransportConfig) :
    (transformLog p c).severity = severitySpec p.level := by
  cases hl : p.level with
  | none => simp [transformLog, severitySpec, hl, Option.none_bind, jsOrInt]
  | some l =>
      simp only [transformLog, severitySpec, hl, Option.some_bind,
                 LEVEL_TO_SEVERITY, jsOrInt]
      split_ifs <;> rfl

/-- Claim C10: calling `stop()` again after a completed `stop()` is safe:
the second call finds the timer handle already cleared, skips cancellation,
and its final flush is a no-op that performs no delivery when nothing was
added in between. -/
theorem stop_idempotent {R : Type} (s : AccState R) (hf : s.flushing = false) :
    ((stop s).1.timer = false) ∧ ((stop s).1.batch = []) ∧
    stop ((stop s).1) = ((stop s).1, none) := by
  cases ht : s.timer <;>
    rcases eq_or_ne s.batch [] with hb | hb <;>
      simp [stop, flush, flushStart, flushEnd, ht, hb, hf]

theorem stop_idempotent_witness :
    ((stop (⟨[5], 5, true, false⟩ : AccState Nat)).1.timer = false) ∧
    ((stop (⟨[5], 5, true, false⟩ : AccState Nat)).1.batch = ([] : List Nat)) ∧
    stop ((stop (⟨[5], 5, true, false⟩ : AccState Nat)).1)
      = ((stop (⟨[5], 5, true, false⟩ : AccState Nat)).1, none) :=
  stop_idempotent (⟨[5], 5, true, false⟩ : AccState Nat) rfl
